import Mathlib

/-!
Verification of the Parakeet FastAPI bridge (`parakeet_fastapi/server.py`).

The development shallowly embeds the module's pure logic:
 - `pyStrip` models Python's `str.strip()`;
 - `PredVal` models the polymorphic prediction values handled by
   `_coerce_prediction` (strings, sequences, mappings, objects with a
   `text` attribute, anything else via its `str()` representation);
 - `coercePrediction` embeds `_coerce_prediction`;
 - `loadModel` embeds `_load_model` over an explicit environment/filesystem
   world, counting how many underlying restore calls are performed;
 - `transcribeCore` embeds `_transcribe`, recording temp-file events and
   abstracting the external inference call by its outcome;
 - `transcribeEndpoint` and `healthCheck` embed the two HTTP routes.
-/

/-- Whitespace characters removed by Python's `str.strip()` (ASCII part). -/
def isPySpace (c : Char) : Bool :=
  c = ' ' || c = '\t' || c = '\n' || c = '\x0d' || c = '\x0b' || c = '\x0c'

/-- Strip `isPySpace` characters from both ends of a character list. -/
def stripChars (l : List Char) : List Char :=
  (((l.dropWhile isPySpace).reverse.dropWhile isPySpace)).reverse

/-- Embedding of Python's `s.strip()` (no arguments). -/
def pyStrip (s : String) : String :=
  ⟨stripChars s.data⟩

/-- A single quote character, used by the embedded `repr` of strings. -/
def pyQuote : String := String.singleton (Char.ofNat 39)

/-- Shapes of prediction values reaching `_coerce_prediction`: a plain
string, a list/tuple of nested values, a string-keyed mapping, or an opaque
object carrying an optional `text` attribute and a `str()` representation. -/
inductive PredVal where
  | str (s : String)
  | seq (items : List PredVal)
  | dict (entries : List (String × PredVal))
  | obj (textAttr : Option PredVal) (reprStr : String)

mutual

/-- Embedding of Python's `str(value)` for the shapes of `PredVal`
(`repr` of the contents for containers, as Python prints them). -/
def pyRepr : PredVal → String
  | .str s => pyQuote ++ s ++ pyQuote
  | .seq items => "[" ++ pyReprItems items ++ "]"
  | .dict entries => "\x7b" ++ pyReprEntries entries ++ "\x7d"
  | .obj _ r => r

/-- Comma-separated `repr`s of the items of a list. -/
def pyReprItems : List PredVal → String
  | [] => ""
  | [x] => pyRepr x
  | x :: y :: xs => pyRepr x ++ ", " ++ pyReprItems (y :: xs)

/-- Comma-separated `key: value` `repr`s of the entries of a mapping. -/
def pyReprEntries : List (String × PredVal) → String
  | [] => ""
  | [(k, v)] => pyQuote ++ k ++ pyQuote ++ ": " ++ pyRepr v
  | (k, v) :: e :: es =>
      pyQuote ++ k ++ pyQuote ++ ": " ++ pyRepr v ++ ", " ++ pyReprEntries (e :: es)

end

/-- The fixed, ordered candidate keys probed on mapping predictions. -/
def candidateKeys : List String :=
  ["text", "transcript", "transcription", "result", "message", "detail"]

/-- Probe the candidate keys in order on a mapping's entries: return the
first value that is a string with non-whitespace content, stripped
(the `isinstance(value, str) and value.strip()` loop). -/
def probeKeys (entries : List (String × PredVal)) : List String → Option String
  | [] => none
  | k :: ks =>
      match entries.lookup k with
      | some (PredVal.str v) =>
          if pyStrip v = "" then probeKeys entries ks else some (pyStrip v)
      | _ => probeKeys entries ks

mutual

/-- Embedding of `_coerce_prediction`: convert a prediction value into
plain text, branch for branch as in the source. -/
def coercePrediction : PredVal → String
  | .str s => pyStrip s
  | .seq items => coerceItems items
  | .dict entries =>
      match probeKeys entries candidateKeys with
      | some t => t
      | none => pyStrip (pyRepr (.dict entries))
  | .obj textAttr reprStr =>
      match textAttr with
      | some (.str s) => pyStrip s
      | _ => pyStrip reprStr

/-- The `for item in prediction` loop of the sequence branch: first
non-empty coerced text wins, otherwise the empty string. -/
def coerceItems : List PredVal → String
  | [] => ""
  | x :: xs =>
      let t := coercePrediction x
      if t = "" then coerceItems xs else t

end

/-- A loaded model handle: the restore path, the device it was restored on,
and the fact that it was put into inference (eval) mode. -/
structure ModelHandle where
  path : String
  device : String
  evalMode : Bool
deriving DecidableEq

/-- The module-level mutable state: `_model` and `_device`. -/
structure ServerState where
  model : Option ModelHandle
  device : String
deriving DecidableEq

/-- The module-level initial values: `_model = None`, `_device = "cpu"`. -/
def initialState : ServerState := { model := none, device := "cpu" }

/-- The world `_load_model` reads: the `MODEL_PATH` environment variable,
which filesystem paths exist, and whether CUDA is available. -/
structure World where
  modelPathVar : Option String
  pathExists : String → Bool
  cudaAvailable : Bool

deriving instance DecidableEq for Except

/-- Outcome of one `_load_model` call: the resulting state, the normal or
`RuntimeError` result, and how many underlying restore calls were made. -/
structure LoadResult where
  state : ServerState
  result : Except String Unit
  loads : Nat
deriving DecidableEq

/-- Embedding of `_load_model`: return immediately when a model handle
exists; otherwise read `MODEL_PATH`, raise a `RuntimeError` when it is
unset/empty or names no existing path, and otherwise restore the model on
the selected device and put it into eval mode. -/
def loadModel (w : World) (st : ServerState) : LoadResult :=
  if st.model.isSome then
    { state := st, result := Except.ok (), loads := 0 }
  else
    match w.modelPathVar with
    | none =>
        { state := st
          result := Except.error "MODEL_PATH environment variable is not set."
          loads := 0 }
    | some p =>
        if p = "" then
          { state := st
            result := Except.error "MODEL_PATH environment variable is not set."
            loads := 0 }
        else if !w.pathExists p then
          { state := st
            result := Except.error ("MODEL_PATH does not exist: " ++ p)
            loads := 0 }
        else
          let dev := if w.cudaAvailable then "cuda" else "cpu"
          { state :=
              { model := some { path := p, device := dev, evalMode := true }
                device := dev }
            result := Except.ok ()
            loads := 1 }

/-- Whether the configuration would let a fresh load succeed: `MODEL_PATH`
set, non-empty, and naming an existing filesystem entry. -/
def configOk (w : World) : Bool :=
  match w.modelPathVar with
  | none => false
  | some p => p != "" && w.pathExists p

/-- Response body of the `/healthz` route: status string and device label. -/
def healthCheck (st : ServerState) : String × String :=
  (if st.model.isSome then "ready" else "loading", st.device)

/-- An inbound multipart upload: declared content type, declared filename,
and the raw payload bytes. -/
structure Upload where
  contentType : Option String
  filename : Option String
  payload : List UInt8
deriving DecidableEq

/-- Embedding of Python's `s.startswith(p)` as a character-list test. -/
def pyStartsWith (s p : String) : Bool :=
  p.data.isPrefixOf s.data

/-- The guard `upload.content_type and not upload.content_type.startswith("audio")`:
a declared, non-empty content type without the audio prefix is rejected. -/
def contentTypeBad (u : Upload) : Bool :=
  match u.contentType with
  | none => false
  | some ct => ct != "" && !(pyStartsWith ct "audio")

/-- The expression `upload.filename or "audio.wav"`: empty or missing
filenames fall back to the default. -/
def effectiveFilename (u : Upload) : String :=
  match u.filename with
  | none => "audio.wav"
  | some f => if f = "" then "audio.wav" else f

/-- The basename of a path: the part after the last `/`. -/
def baseNameChars (l : List Char) : List Char :=
  (l.reverse.takeWhile (fun c => c ≠ '/')).reverse

/-- The extension of a basename, following `os.path.splitext`: leading dots
do not start an extension; otherwise the extension runs from the last dot. -/
def extOfBase (base : List Char) : List Char :=
  let rest := base.dropWhile (fun c => c = '.')
  if rest.contains '.' then
    '.' :: (rest.reverse.takeWhile (fun c => c ≠ '.')).reverse
  else
    []

/-- Embedding of `os.path.splitext(p)[1]`. -/
def pySplitextExt (s : String) : String :=
  ⟨extOfBase (baseNameChars s.data)⟩

/-- The suffix chosen for the temporary file:
`os.path.splitext(upload.filename or "audio.wav")[1] or ".wav"`. -/
def uploadSuffix (u : Upload) : String :=
  let ext := pySplitextExt (effectiveFilename u)
  if ext = "" then ".wav" else ext

/-- Observable temp-file events of one `_transcribe` call. -/
inductive Event where
  | tempCreate (path : String)
  | tempRemove (path : String)
  | tempRemoveMissing (path : String)
deriving DecidableEq

/-- Outcome of the external `_model.transcribe([temp_path])` call: either a
list of prediction values or a raised exception. -/
inductive InfOutcome where
  | ok (preds : List PredVal)
  | raised

/-- Result of one request: a normal JSON text response, an
`HTTPException(status, detail)`, or an uncaught exception (which the
framework surfaces as a generic 500 server error). -/
inductive TResult where
  | ok (text : String)
  | httpError (status : Nat) (detail : String)
  | raised (msg : String)
deriving DecidableEq

/-- HTTP status code a `TResult` is surfaced with. -/
def httpStatusOf : TResult → Nat
  | .ok _ => 200
  | .httpError s _ => s
  | .raised _ => 500

/-- Embedding of `_transcribe`: validate the content type and payload,
write the payload to a temp file named `tempBase ++ suffix`, call inference
(whose outcome `inf` is a parameter), always remove the temp file —
tolerating its absence (`fileStillExists = false`) silently — and then
check for an empty prediction list and coerce the first prediction.
`modelPresent` is the `assert _model is not None` input. -/
def transcribeCore (modelPresent : Bool) (u : Upload) (tempBase : String)
    (fileStillExists : Bool) (inf : InfOutcome) : List Event × TResult :=
  if contentTypeBad u then
    ([], .httpError 400 "Invalid content type. Expected audio/*.")
  else if u.payload.isEmpty then
    ([], .httpError 400 "Uploaded file is empty.")
  else
    let path := tempBase ++ uploadSuffix u
    let cleanup : Event :=
      if fileStillExists then .tempRemove path else .tempRemoveMissing path
    if !modelPresent then
      ([.tempCreate path, cleanup], .raised "AssertionError")
    else
      match inf with
      | .raised => ([.tempCreate path, cleanup], .raised "inference exception")
      | .ok [] =>
          ([.tempCreate path, cleanup],
           .httpError 500 "ASR model returned no predictions.")
      | .ok (p :: _) => ([.tempCreate path, cleanup], .ok (coercePrediction p))

/-- Embedding of the `/transcribe` route: load the model when no handle
exists (a load `RuntimeError` propagates uncaught), then run `_transcribe`. -/
def transcribeEndpoint (w : World) (st : ServerState) (u : Upload)
    (tempBase : String) (fileStillExists : Bool) (inf : InfOutcome) :
    ServerState × List Event × TResult :=
  match st.model with
  | some _ => (st, transcribeCore true u tempBase fileStillExists inf)
  | none =>
      let r := loadModel w st
      match r.result with
      | .error m => (r.state, [], .raised m)
      | .ok () =>
          (r.state,
           transcribeCore r.state.model.isSome u tempBase fileStillExists inf)

theorem dropWhile_dropWhile {α : Type} (p : α → Bool) (l : List α) :
    (l.dropWhile p).dropWhile p = l.dropWhile p := by
  induction l with
  | nil => rfl
  | cons a t ih =>
      cases hpa : p a with
      | true => rw [List.dropWhile_cons_of_pos hpa]; exact ih
      | false =>
          rw [List.dropWhile_cons_of_neg (by simp [hpa])]
          rw [List.dropWhile_cons_of_neg (by simp [hpa])]

theorem dropWhile_head_false {α : Type} (p : α → Bool) :
    ∀ (l : List α) (a : α) (t : List α), l.dropWhile p = a :: t → p a = false := by
  intro l
  induction l with
  | nil => intro a t h; simp [List.dropWhile] at h
  | cons b r ih =>
      intro a t h
      cases hpb : p b with
      | true => rw [List.dropWhile_cons_of_pos hpb] at h; exact ih a t h
      | false =>
          rw [List.dropWhile_cons_of_neg (by simp [hpb])] at h
          injection h with h1 h2
          rw [← h1]; exact hpb

theorem dropWhile_getLast {α : Type} (p : α → Bool) :
    ∀ (l : List α), l.dropWhile p ≠ [] → (l.dropWhile p).getLast? = l.getLast? := by
  intro l
  induction l with
  | nil => intro h; simp [List.dropWhile] at h
  | cons b r ih =>
      intro h
      cases hpb : p b with
      | false => rw [List.dropWhile_cons_of_neg (by simp [hpb])]
      | true =>
          rw [List.dropWhile_cons_of_pos hpb] at h ⊢
          have hr : r ≠ [] := by
            intro hre; rw [hre] at h; simp [List.dropWhile] at h
          rw [ih h]
          cases r with
          | nil => exact absurd rfl hr
          | cons c s => rw [List.getLast?_cons_cons]

theorem stripTwice {α : Type} (p : α → Bool) (l : List α) :
    (((((l.dropWhile p).reverse.dropWhile p).reverse).dropWhile p).reverse.dropWhile p).reverse
      = ((l.dropWhile p).reverse.dropWhile p).reverse := by
  have h1 : (((l.dropWhile p).reverse.dropWhile p).reverse).dropWhile p
      = ((l.dropWhile p).reverse.dropWhile p).reverse := by
    cases hwr : ((l.dropWhile p).reverse.dropWhile p).reverse with
    | nil => rfl
    | cons a t =>
        have h2 : ((l.dropWhile p).reverse.dropWhile p) ≠ [] := by
          intro hw; rw [hw] at hwr; simp at hwr
        have h4 : ((l.dropWhile p).reverse.dropWhile p).getLast? = some a := by
          rw [← List.head?_reverse, hwr]; rfl
        rw [dropWhile_getLast p (l.dropWhile p).reverse h2, List.getLast?_reverse] at h4
        have ha : p a = false := by
          cases hd : l.dropWhile p with
          | nil => rw [hd] at h4; simp at h4
          | cons b s =>
              rw [hd] at h4
              simp only [List.head?_cons, Option.some.injEq] at h4
              rw [← h4]; exact dropWhile_head_false p l b s hd
        exact List.dropWhile_cons_of_neg (by simp [ha])
  rw [h1, List.reverse_reverse, dropWhile_dropWhile]

theorem pyStrip_idem (s : String) : pyStrip (pyStrip s) = pyStrip s :=
  congrArg String.mk (stripTwice isPySpace s.data)

theorem probeKeys_isStripped (entries : List (String × PredVal)) :
    ∀ (ks : List String) (t : String), probeKeys entries ks = some t → pyStrip t = t := by
  intro ks
  induction ks with
  | nil => intro t h; simp [probeKeys] at h
  | cons k ks ih =>
      intro t h
      rw [probeKeys] at h
      split at h
      · split at h
        · exact ih t h
        · injection h with h1; rw [← h1]; exact pyStrip_idem _
      · exact ih t h

theorem coerceItems_cases : ∀ l : List PredVal,
    coerceItems l = "" ∨ ∃ p ∈ l, coerceItems l = coercePrediction p := by
  intro l
  induction l with
  | nil => left; rfl
  | cons x xs ih =>
      by_cases hx : coercePrediction x = ""
      · rw [coerceItems]
        simp only [hx, if_pos rfl]
        rcases ih with h | ⟨p, hp, he⟩
        · left; exact h
        · right; exact ⟨p, List.mem_cons_of_mem x hp, he⟩
      · right
        refine ⟨x, List.mem_cons_self x xs, ?_⟩
        rw [coerceItems]
        simp [hx]

theorem coerce_strip_aux : ∀ (n : Nat) (p : PredVal), sizeOf p ≤ n →
    pyStrip (coercePrediction p) = coercePrediction p := by
  intro n
  induction n with
  | zero => intro p hp; cases p <;> simp at hp
  | succ n ih =>
      intro p hp
      cases p with
      | str s => rw [coercePrediction]; exact pyStrip_idem s
      | seq items =>
          rw [coercePrediction]
          rcases coerceItems_cases items with h | ⟨q, hq, he⟩
          · rw [h]; rfl
          · rw [he]
            apply ih
            have h1 : sizeOf q < sizeOf items := List.sizeOf_lt_of_mem hq
            simp only [PredVal.seq.sizeOf_spec] at hp
            omega
      | dict entries =>
          rw [coercePrediction]
          split
          · exact probeKeys_isStripped entries candidateKeys _ (by assumption)
          · exact pyStrip_idem _
      | obj ta r =>
          cases ta with
          | none => simp only [coercePrediction]; exact pyStrip_idem r
          | some q =>
              cases q <;> simp only [coercePrediction] <;> exact pyStrip_idem _

example : coercePrediction (.str "hello ") = "hello" := by decide

/-- Claim C1 (counterexample): on `[{"foo": "x"}, {"text": " hi "}]` the
coercion does not return `"hi"`. The first element is a mapping with no
matching candidate key, but instead of being skipped it falls through to
its default string representation, which is non-empty, so the sequence
branch returns it. -/
theorem coerce_seq_example_ne_hi :
    coercePrediction
        (.seq [.dict [("foo", .str "x")], .dict [("text", .str " hi ")]]) ≠ "hi" := by
  decide

/-- Claim C1 (amended): on `[{"foo": "x"}, {"text": " hi "}]` the coercion
returns the default string representation of the first element, the
non-empty text `{'foo': 'x'}`. -/
theorem coerce_seq_example_value :
    coercePrediction
        (.seq [.dict [("foo", .str "x")], .dict [("text", .str " hi ")]]) =
      "\x7b" ++ pyQuote ++ "foo" ++ pyQuote ++ ": " ++ pyQuote ++ "x" ++ pyQuote ++ "\x7d" := by
  decide

/-- Claim C2 (counterexample): on the mapping `{"result": ""}` the coercion
does not return the empty string: the fall-through default string
representation of the mapping itself is non-empty. -/
theorem coerce_dict_empty_result_ne_empty :
    coercePrediction (.dict [("result", .str "")]) ≠ "" := by
  decide

/-- Claim C2 (amended): on `{"result": ""}` the empty-string value fails the
non-whitespace-content check for every candidate key, and the coercion
falls through to the default string representation of the whole mapping,
returning the non-empty text `{'result': ''}`. -/
theorem coerce_dict_empty_result_value :
    coercePrediction (.dict [("result", .str "")]) =
      "\x7b" ++ pyQuote ++ "result" ++ pyQuote ++ ": " ++ pyQuote ++ pyQuote ++ "\x7d" := by
  decide

/-- Claim C10: for every prediction value, of any shape, the coercion
returns a string with no leading or trailing whitespace — its result equals
its own stripped copy. -/
theorem coerce_result_trimmed (p : PredVal) :
    coercePrediction p = pyStrip (coercePrediction p) :=
  (coerce_strip_aux (sizeOf p) p le_rfl).symm

/-- Claim C3 (counterexample): an upload whose declared content type is
present but empty (`""`) does not begin with the audio prefix, yet the
handler does not reject it: the guard treats an empty content type as
undeclared, a temporary file is created, and the request succeeds. -/
theorem transcribe_empty_contentType_cex :
    transcribeCore true
        { contentType := some "", filename := some "a.wav", payload := [0] }
        "/tmp/t" true (.ok [.str "ok"]) =
      ([.tempCreate "/tmp/t.wav", .tempRemove "/tmp/t.wav"], .ok "ok") := by
  decide

/-- Claim C3 (amended): for every upload whose declared content type is
present, non-empty, and does not begin with the audio media-type prefix,
the handler fails with `InvalidInputError` (HTTP 400) before any temporary
file is created: the event trace is empty. -/
theorem transcribe_bad_contentType (mp : Bool) (u : Upload) (tb : String)
    (fs : Bool) (inf : InfOutcome) (ct : String) (hct : u.contentType = some ct)
    (hne : ct ≠ "") (hpre : pyStartsWith ct "audio" = false) :
    transcribeCore mp u tb fs inf =
      ([], .httpError 400 "Invalid content type. Expected audio/*.") := by
  have hbad : contentTypeBad u = true := by
    unfold contentTypeBad
    rw [hct]
    simp [hne, hpre]
  unfold transcribeCore
  rw [hbad]
  simp

/-- Witness for the amended Claim C3 at content type `text/plain`. -/
theorem transcribe_bad_contentType_witness :
    transcribeCore true
        { contentType := some "text/plain", filename := none, payload := [1] }
        "/tmp/t" true (.ok []) =
      ([], .httpError 400 "Invalid content type. Expected audio/*.") :=
  transcribe_bad_contentType true
    { contentType := some "text/plain", filename := none, payload := [1] }
    "/tmp/t" true (.ok []) "text/plain" rfl (by decide) (by decide)

/-- Claim C4: for every upload whose read payload is empty, the handler
fails with `InvalidInputError` (HTTP 400) — with the empty-file detail when
the content type passes, and with the content-type detail when that guard
fires first; either way an HTTP 400 input error. -/
theorem transcribe_empty_payload (mp : Bool) (u : Upload) (tb : String)
    (fs : Bool) (inf : InfOutcome) (hp : u.payload = []) :
    ∃ d, transcribeCore mp u tb fs inf = ([], .httpError 400 d) := by
  cases hb : contentTypeBad u with
  | true =>
      refine ⟨"Invalid content type. Expected audio/*.", ?_⟩
      unfold transcribeCore
      rw [hb]
      simp
  | false =>
      refine ⟨"Uploaded file is empty.", ?_⟩
      unfold transcribeCore
      rw [hb]
      simp [hp]

/-- Witness for Claim C4 at a declared audio content type and empty payload. -/
theorem transcribe_empty_payload_witness :
    ∃ d, transcribeCore true
        { contentType := some "audio/wav", filename := none, payload := [] }
        "/tmp/t" true (.ok []) = ([], .httpError 400 d) :=
  transcribe_empty_payload true
    { contentType := some "audio/wav", filename := none, payload := [] }
    "/tmp/t" true (.ok []) rfl

/-- Claim C5: for every upload that passes input validation, exactly one
temporary file is created and it is removed on every exit path (the event
trace is always the creation followed by the removal, for success, for an
empty prediction list, for an inference exception, and even for the
assertion path), and a file-already-absent condition during removal is
tolerated silently: the result does not depend on whether the file still
exists at removal time. -/
theorem transcribe_temp_file_scoped (mp : Bool) (u : Upload) (tb : String)
    (fs : Bool) (inf : InfOutcome) (hct : contentTypeBad u = false)
    (hp : u.payload ≠ []) :
    (transcribeCore mp u tb fs inf).1 =
      [.tempCreate (tb ++ uploadSuffix u),
       if fs then .tempRemove (tb ++ uploadSuffix u)
       else .tempRemoveMissing (tb ++ uploadSuffix u)] ∧
    (transcribeCore mp u tb true inf).2 = (transcribeCore mp u tb false inf).2 := by
  have hpe : u.payload.isEmpty = false := by
    cases hpl : u.payload with
    | nil => exact absurd hpl hp
    | cons a t => rfl
  constructor
  · cases mp <;> rcases inf with preds | _ <;> try cases preds
    all_goals cases fs <;> simp [transcribeCore, hct, hpe]
  · cases mp <;> rcases inf with preds | _ <;> try cases preds
    all_goals simp [transcribeCore, hct, hpe]

/-- Witness for Claim C5 at a valid audio upload with a successful
inference outcome. -/
theorem transcribe_temp_file_scoped_witness :
    (transcribeCore true
        { contentType := some "audio/wav", filename := some "x.flac", payload := [7] }
        "/tmp/t" true (.ok [.str " hi "])).1 =
      [.tempCreate ("/tmp/t" ++ uploadSuffix
          { contentType := some "audio/wav", filename := some "x.flac", payload := [7] }),
       if true then .tempRemove ("/tmp/t" ++ uploadSuffix
          { contentType := some "audio/wav", filename := some "x.flac", payload := [7] })
       else .tempRemoveMissing ("/tmp/t" ++ uploadSuffix
          { contentType := some "audio/wav", filename := some "x.flac", payload := [7] })] ∧
    (transcribeCore true
        { contentType := some "audio/wav", filename := some "x.flac", payload := [7] }
        "/tmp/t" true (.ok [.str " hi "])).2 =
    (transcribeCore true
        { contentType := some "audio/wav", filename := some "x.flac", payload := [7] }
        "/tmp/t" false (.ok [.str " hi "])).2 :=
  transcribe_temp_file_scoped true
    { contentType := some "audio/wav", filename := some "x.flac", payload := [7] }
    "/tmp/t" true (.ok [.str " hi "]) (by decide) (by decide)

/-- Claim C9: for every prediction list returned by the inference call on a
validated upload, the handler fails with `InferenceError` (HTTP 500)
exactly when the list is empty, and on a non-empty list returns the
coercion of its first element. -/
theorem transcribe_predictions (u : Upload) (tb : String) (fs : Bool)
    (preds : List PredVal) (p : PredVal) (ps : List PredVal)
    (hct : contentTypeBad u = false) (hp : u.payload ≠ []) :
    ((transcribeCore true u tb fs (.ok preds)).2 =
        .httpError 500 "ASR model returned no predictions." ↔ preds = []) ∧
    (transcribeCore true u tb fs (.ok (p :: ps))).2 = .ok (coercePrediction p) := by
  have hpe : u.payload.isEmpty = false := by
    cases hpl : u.payload with
    | nil => exact absurd hpl hp
    | cons a t => rfl
  constructor
  · cases preds with
    | nil => simp [transcribeCore, hct, hpe]
    | cons q qs => simp [transcribeCore, hct, hpe]
  · simp [transcribeCore, hct, hpe]

/-- Witness for Claim C9 at an empty prediction list and a singleton
prediction list. -/
theorem transcribe_predictions_witness :
    ((transcribeCore true
        { contentType := some "audio/wav", filename := none, payload := [7] }
        "/tmp/t" true (.ok [])).2 =
        .httpError 500 "ASR model returned no predictions." ↔ ([] : List PredVal) = []) ∧
    (transcribeCore true
        { contentType := some "audio/wav", filename := none, payload := [7] }
        "/tmp/t" true (.ok [.str " hi "])).2 = .ok (coercePrediction (.str " hi ")) :=
  transcribe_predictions
    { contentType := some "audio/wav", filename := none, payload := [7] }
    "/tmp/t" true [] (.str " hi ") [] (by decide) (by decide)

theorem loadModel_skip_of_isSome (w : World) (st : ServerState)
    (h : st.model.isSome = true) :
    loadModel w st = { state := st, result := Except.ok (), loads := 0 } := by
  unfold loadModel
  rw [h]
  simp

/-- Claim C6: the model load is idempotent. A first call from the empty
state that succeeds performs the underlying load exactly once, and a second
sequential call returns immediately with the same state, no error, and no
further underlying load. -/
theorem loadModel_load_once (w : World) (st0 : ServerState)
    (h0 : st0.model = none) (h1 : (loadModel w st0).result = Except.ok ()) :
    (loadModel w st0).loads = 1 ∧
    loadModel w (loadModel w st0).state =
      { state := (loadModel w st0).state, result := Except.ok (), loads := 0 } := by
  have hs : st0.model.isSome = false := by rw [h0]; rfl
  have key : (loadModel w st0).loads = 1 ∧
      (loadModel w st0).state.model.isSome = true := by
    cases hmp : w.modelPathVar with
    | none => simp [loadModel, hs, hmp] at h1
    | some p =>
        by_cases hpe : p = ""
        · simp [loadModel, hs, hmp, hpe] at h1
        · cases hex : w.pathExists p with
          | true => simp [loadModel, hs, hmp, hpe, hex]
          | false => simp [loadModel, hs, hmp, hpe, hex] at h1
  exact ⟨key.1, loadModel_skip_of_isSome w _ key.2⟩

/-- Witness for Claim C6: a world whose model path exists. -/
theorem loadModel_load_once_witness :
    (loadModel
        { modelPathVar := some "/models/p.nemo",
          pathExists := fun q => q == "/models/p.nemo", cudaAvailable := false }
        initialState).loads = 1 ∧
    loadModel
        { modelPathVar := some "/models/p.nemo",
          pathExists := fun q => q == "/models/p.nemo", cudaAvailable := false }
        (loadModel
          { modelPathVar := some "/models/p.nemo",
            pathExists := fun q => q == "/models/p.nemo", cudaAvailable := false }
          initialState).state =
      { state := (loadModel
          { modelPathVar := some "/models/p.nemo",
            pathExists := fun q => q == "/models/p.nemo", cudaAvailable := false }
          initialState).state,
        result := Except.ok (), loads := 0 } :=
  loadModel_load_once
    { modelPathVar := some "/models/p.nemo",
      pathExists := fun q => q == "/models/p.nemo", cudaAvailable := false }
    initialState rfl rfl

/-- Claim C7: from a state with no model handle, the load fails exactly
when the configuration is bad (`MODEL_PATH` unset, empty, or naming no
existing path); on such a failure the state is unchanged — so the health
endpoint still reports `"loading"` — and a transcription request fails with
the load error, an uncaught exception surfaced as HTTP 500. -/
theorem loadModel_config_failure (w : World) (st : ServerState) (u : Upload)
    (tb : String) (fs : Bool) (inf : InfOutcome) (hm : st.model = none) :
    ((loadModel w st).result = Except.ok () ↔ configOk w = true) ∧
    (configOk w = false →
      (loadModel w st).state = st ∧
      (healthCheck st).1 = "loading" ∧
      ∃ m, transcribeEndpoint w st u tb fs inf = (st, [], .raised m) ∧
        httpStatusOf (.raised m) = 500) := by
  have hs : st.model.isSome = false := by rw [hm]; rfl
  have hhealth : (healthCheck st).1 = "loading" := by
    unfold healthCheck
    rw [hs]
    rfl
  cases hmp : w.modelPathVar with
  | none =>
      refine ⟨by simp [loadModel, configOk, hs, hmp], fun _ => ⟨?_, hhealth, ?_⟩⟩
      · simp [loadModel, hs, hmp]
      · refine ⟨"MODEL_PATH environment variable is not set.", ?_, rfl⟩
        unfold transcribeEndpoint
        rw [hm]
        simp [loadModel, hs, hmp]
  | some p =>
      by_cases hpe : p = ""
      · subst hpe
        refine ⟨by simp [loadModel, configOk, hs, hmp], fun _ => ⟨?_, hhealth, ?_⟩⟩
        · simp [loadModel, hs, hmp]
        · refine ⟨"MODEL_PATH environment variable is not set.", ?_, rfl⟩
          unfold transcribeEndpoint
          rw [hm]
          simp [loadModel, hs, hmp]
      · by_cases hex : w.pathExists p = true
        · constructor
          · simp [loadModel, configOk, hs, hmp, hpe, hex]
          · intro hbad
            have hok : configOk w = true := by
              simp [configOk, hmp, hex, bne_iff_ne, hpe]
            rw [hok] at hbad
            exact Bool.noConfusion hbad
        · have hexf : w.pathExists p = false := by
            cases hexv : w.pathExists p with
            | true => exact absurd hexv hex
            | false => rfl
          refine ⟨by simp [loadModel, configOk, hs, hmp, hpe, hexf], fun _ => ⟨?_, hhealth, ?_⟩⟩
          · simp [loadModel, hs, hmp, hpe, hexf]
          · refine ⟨"MODEL_PATH does not exist: " ++ p, ?_, rfl⟩
            unfold transcribeEndpoint
            rw [hm]
            simp [loadModel, hs, hmp, hpe, hexf]

/-- Witness for Claim C7: an unset `MODEL_PATH`. -/
theorem loadModel_config_failure_witness :
    ((loadModel
        { modelPathVar := none, pathExists := fun _ => false, cudaAvailable := false }
        initialState).result = Except.ok () ↔
      configOk { modelPathVar := none, pathExists := fun _ => false,
                 cudaAvailable := false } = true) ∧
    (configOk { modelPathVar := none, pathExists := fun _ => false,
                cudaAvailable := false } = false →
      (loadModel
          { modelPathVar := none, pathExists := fun _ => false, cudaAvailable := false }
          initialState).state = initialState ∧
      (healthCheck initialState).1 = "loading" ∧
      ∃ m, transcribeEndpoint
          { modelPathVar := none, pathExists := fun _ => false, cudaAvailable := false }
          initialState
          { contentType := some "audio/wav", filename := none, payload := [7] }
          "/tmp/t" true (.ok []) = (initialState, [], .raised m) ∧
        httpStatusOf (.raised m) = 500) :=
  loadModel_config_failure
    { modelPathVar := none, pathExists := fun _ => false, cudaAvailable := false }
    initialState
    { contentType := some "audio/wav", filename := none, payload := [7] }
    "/tmp/t" true (.ok []) rfl

/-- Claim C8: the health endpoint reports `"ready"` exactly when a model
handle exists and `"loading"` otherwise, alongside the current device
label, which is the fallback label `"cpu"` in the initial state. -/
theorem healthCheck_status (st : ServerState) :
    ((healthCheck st).1 = "ready" ↔ st.model.isSome = true) ∧
    ((healthCheck st).1 = "loading" ↔ st.model.isSome = false) ∧
    (healthCheck st).2 = st.device ∧
    healthCheck initialState = ("loading", "cpu") := by
  refine ⟨?_, ?_, rfl, rfl⟩ <;>
    cases hm : st.model.isSome <;>
      simp [healthCheck, hm]
